import Mathlib

/-!
# HttpServerSession: pooled origin-server session

A shallow embedding of `src/proxy/http/HttpServerSession.h`.

* Pointers are `Option` values: `nullptr` is `none`.  Pointers to other
  sessions, buffers, readers and tracking groups are abstract handles (`Nat`).
* The transport handle `NetVConnection *server_vc` is `Option NetVConnection`;
  the only thing this header asks of the pointee is its remote endpoint.
* A member function that mutates `this` is a function from the session to the
  updated session.  An accessor returning a reference (`self_type *&`) is a
  pair: the read through the reference and the write through the reference.
* `ink_release_assert` failing is the error value `Abort.ink_release_assert`.
* Functions and types that the header uses but that are declared in other
  headers (`CryptoHash`, `CryptoContext::hash_immediate`, `CryptoHash::fold`,
  `ats_ip_hash`, `ats_ip_addr_port_eq`) are parameters or are modelled from the
  specification, as stated at each definition.
-/

namespace HttpServerSessionModel

/-! ## Types declared outside the header -/

/-- One octet of memory. -/
abbrev Byte := Fin 256

/-- Modelled from the spec: the type `CryptoHash` is declared in `CryptoHash.h`, which is
not part of the sources.  The specification calls the fingerprint a fixed-width hash that
is compared bitwise; it is modelled as a bit pattern of `w` bits, the width `w` being a
parameter. -/
abbrev CryptoHash (w : Nat) := Fin (2 ^ w)

/-- Modelled from the spec: the constant `CRYPTO_HASH_ZERO` is declared outside the
sources; the all-zero fingerprint. -/
def CRYPTO_HASH_ZERO {w : Nat} : CryptoHash w := ⟨0, Nat.pos_pow_of_pos w (by decide)⟩

/-- Modelled from the spec: `CryptoHash::operator==` is declared outside the sources;
bitwise-equal comparison of two fingerprints. -/
def CryptoHash.eq {w : Nat} (lhs rhs : CryptoHash w) : Bool := decide (lhs.val = rhs.val)

/-- Modelled from the spec: the address part of a `sockaddr` (declared in the system
headers): an IPv4 or an IPv6 address. -/
inductive IpAddr where
  | ip4 (a : Fin (2 ^ 32))
  | ip6 (a : Fin (2 ^ 128))
deriving DecidableEq, Repr

/-- Modelled from the spec: a socket address (declared in the system headers) is a
destination network endpoint, an address and a port. -/
structure sockaddr where
  addr : IpAddr
  port : Fin 65536
deriving DecidableEq, Repr

/-- Modelled from the spec: `IpEndpoint` is declared in `ink_inet.h`, outside the
sources; a union whose member `sa` views the endpoint as a `sockaddr`. -/
structure IpEndpoint where
  sa : sockaddr
deriving DecidableEq, Repr

/-- Modelled from the spec: `NetVConnection` is declared in `P_Net.h`, outside the
sources; the transport collaborator, of which this header uses the remote-endpoint
accessor only.  The field `handle` stands for the identity (address) of the object. -/
structure NetVConnection where
  handle : Nat
  remote_endpoint : IpEndpoint
deriving DecidableEq, Repr

/-- Accessor `NetVConnection::get_remote_endpoint`. -/
def NetVConnection.get_remote_endpoint (vc : NetVConnection) : IpEndpoint :=
  vc.remote_endpoint

/-- Modelled from the spec: `ats_ip_addr_port_eq` is declared in `ink_inet.h`, outside
the sources.  The specification: equality compares address and port exactly (no
subnet matching). -/
def ats_ip_addr_port_eq (lhs rhs : sockaddr) : Bool :=
  lhs.addr == rhs.addr && lhs.port == rhs.port

/-- Modelled from the spec: `TSServerSessionSharingMatchType` is declared in
`HttpProxyAPIEnums.h`, outside the sources; the sharing-match mode is one of none,
by-IP, by-hostname, both. -/
inductive TSServerSessionSharingMatchType where
  | TS_SERVER_SESSION_SHARING_MATCH_NONE
  | TS_SERVER_SESSION_SHARING_MATCH_BOTH
  | TS_SERVER_SESSION_SHARING_MATCH_IP
  | TS_SERVER_SESSION_SHARING_MATCH_HOST
deriving DecidableEq, Repr

/-- Modelled from the spec: `TSServerSessionSharingPoolType` is declared in
`HttpProxyAPIEnums.h`, outside the sources; the sharing-pool scope is private to the
owner context or global. -/
inductive TSServerSessionSharingPoolType where
  | TS_SERVER_SESSION_SHARING_POOL_GLOBAL
  | TS_SERVER_SESSION_SHARING_POOL_THREAD
deriving DecidableEq, Repr

/-- Length of the C string stored in `mem`: the number of bytes before the first NUL
byte.  The end of the list acts as the terminator when no NUL byte occurs. -/
def strlen : List Byte → Nat
  | [] => 0
  | c :: cs => if c = 0 then 0 else strlen cs + 1

/-- Failure of a run-time assertion: the process aborts. -/
inductive Abort where
  | ink_release_assert
deriving DecidableEq, Repr

/-! ## The header -/

/-- The enumeration `HSS_State`. -/
inductive HSS_State where
  | HSS_INIT
  | HSS_ACTIVE
  | HSS_KA_CLIENT_SLAVE
  | HSS_KA_SHARED
deriving DecidableEq, Repr

/-- Enumerator `HTTP_SS_MAGIC_ALIVE`. -/
def HTTP_SS_MAGIC_ALIVE : Nat := 0x0123FEED

/-- Enumerator `HTTP_SS_MAGIC_DEAD`. -/
def HTTP_SS_MAGIC_DEAD : Nat := 0xDEADFEED

/-- Conversion of an enumerator value to the 32-bit `int` of a data member: the value
modulo 2^32, read as two's complement. -/
def int_of_enumerator (n : Nat) : Int :=
  if n % 2 ^ 32 < 2 ^ 31 then ((n % 2 ^ 32 : Nat) : Int)
  else ((n % 2 ^ 32 : Nat) : Int) - 2 ^ 32

/-- Hash map descriptor class for the IP map: the links only (the static member
functions follow below). -/
structure HttpServerSession.IPLinkage where
  _next : Option Nat := none
  _prev : Option Nat := none
deriving DecidableEq, Repr

/-- Hash map descriptor class for the FQDN map: the links only. -/
structure HttpServerSession.FQDNLinkage where
  _next : Option Nat := none
  _prev : Option Nat := none
deriving DecidableEq, Repr

/-- The class `HttpServerSession`: its data members, in the order of the header, with
their default member initializers.  `hostname_hash` has no initializer: it is
constructed by the default constructor of `CryptoHash`, which is declared outside the
sources and, after the specification (identity fields unset on creation), gives
`CRYPTO_HASH_ZERO`. -/
structure HttpServerSession (w : Nat) where
  hostname_hash : CryptoHash w := CRYPTO_HASH_ZERO
  con_id : Int := 0
  transact_count : Int := 0
  state : HSS_State := HSS_State.HSS_INIT
  to_parent_proxy : Bool := false
  server_trans_stat : Int := 0
  private_session : Bool := false
  sharing_match : TSServerSessionSharingMatchType :=
    TSServerSessionSharingMatchType.TS_SERVER_SESSION_SHARING_MATCH_BOTH
  sharing_pool : TSServerSessionSharingPoolType :=
    TSServerSessionSharingPoolType.TS_SERVER_SESSION_SHARING_POOL_GLOBAL
  _ip_link : HttpServerSession.IPLinkage := {}
  _fqdn_link : HttpServerSession.FQDNLinkage := {}
  conn_track_group : Option Nat := none
  read_buffer : Option Nat := none
  server_vc : Option NetVConnection := none
  magic : Int := int_of_enumerator HTTP_SS_MAGIC_DEAD
  buf_reader : Option Nat := none
deriving DecidableEq, Repr

namespace HttpServerSession

variable {w : Nat}

/-- The constructor `HttpServerSession()`: every member takes its default member
initializer. -/
def ctor : HttpServerSession w := {}

/-- Accessor `get_netvc`. -/
def get_netvc (s : HttpServerSession w) : Option NetVConnection := s.server_vc

/-- Mutator `set_netvc`. -/
def set_netvc (s : HttpServerSession w) (new_vc : Option NetVConnection) :
    HttpServerSession w :=
  { s with server_vc := new_vc }

/-- Accessor `get_server_ip`: release-asserts that `server_vc` is not null, then
returns the remote endpoint of the transport connection. -/
def get_server_ip (s : HttpServerSession w) : Except Abort IpEndpoint :=
  match s.server_vc with
  | none => Except.error Abort.ink_release_assert
  | some vc => Except.ok vc.get_remote_endpoint

/-- Member function `attach_hostname`.  The parameter `hash_immediate` is
`CryptoContext().hash_immediate`, declared outside the sources: the crypto hash of a
byte buffer.  The buffer passed is the first `strlen hostname` bytes of `hostname`. -/
def attach_hostname (hash_immediate : List Byte → CryptoHash w)
    (s : HttpServerSession w) (hostname : List Byte) : HttpServerSession w :=
  if CryptoHash.eq CRYPTO_HASH_ZERO s.hostname_hash then
    { s with hostname_hash := hash_immediate (hostname.take (strlen hostname)) }
  else
    s

/-! ### IPLinkage: descriptor of the address-keyed index -/

/-- Read through the reference returned by `IPLinkage::next_ptr`. -/
def IPLinkage.next_ptr (ssn : HttpServerSession w) : Option Nat := ssn._ip_link._next

/-- Write through the reference returned by `IPLinkage::next_ptr`. -/
def IPLinkage.next_ptr_assign (ssn : HttpServerSession w) (v : Option Nat) :
    HttpServerSession w :=
  { ssn with _ip_link := { ssn._ip_link with _next := v } }

/-- Read through the reference returned by `IPLinkage::prev_ptr`. -/
def IPLinkage.prev_ptr (ssn : HttpServerSession w) : Option Nat := ssn._ip_link._prev

/-- Write through the reference returned by `IPLinkage::prev_ptr`. -/
def IPLinkage.prev_ptr_assign (ssn : HttpServerSession w) (v : Option Nat) :
    HttpServerSession w :=
  { ssn with _ip_link := { ssn._ip_link with _prev := v } }

/-- Static member `IPLinkage::hash_of`.  The parameter `ats_ip_hash` is declared in
`ink_inet.h`, outside the sources. -/
def IPLinkage.hash_of (ats_ip_hash : sockaddr → Fin (2 ^ 32)) (key : sockaddr) :
    Fin (2 ^ 32) :=
  ats_ip_hash key

/-- Static member `IPLinkage::key_of`: the `sa` view of `get_server_ip()`. -/
def IPLinkage.key_of (ssn : HttpServerSession w) : Except Abort sockaddr :=
  match ssn.get_server_ip with
  | Except.error e => Except.error e
  | Except.ok ep => Except.ok ep.sa

/-- Static member `IPLinkage::equal(sockaddr const *, sockaddr const *)`. -/
def IPLinkage.equal (lhs rhs : sockaddr) : Bool := ats_ip_addr_port_eq lhs rhs

/-- Static member `IPLinkage::equal(sockaddr const *, HttpServerSession const *)`. -/
def IPLinkage.equal_addr_ssn (lhs : sockaddr) (rhs : HttpServerSession w) :
    Except Abort Bool :=
  match IPLinkage.key_of rhs with
  | Except.error e => Except.error e
  | Except.ok k => Except.ok (ats_ip_addr_port_eq lhs k)

/-- Static member `IPLinkage::equal(HttpServerSession const *, sockaddr const *)`. -/
def IPLinkage.equal_ssn_addr (lhs : HttpServerSession w) (rhs : sockaddr) :
    Except Abort Bool :=
  match IPLinkage.key_of lhs with
  | Except.error e => Except.error e
  | Except.ok k => Except.ok (ats_ip_addr_port_eq k rhs)

/-! ### FQDNLinkage: descriptor of the hostname-keyed index -/

/-- Read through the reference returned by `FQDNLinkage::next_ptr`. -/
def FQDNLinkage.next_ptr (ssn : HttpServerSession w) : Option Nat := ssn._fqdn_link._next

/-- Write through the reference returned by `FQDNLinkage::next_ptr`. -/
def FQDNLinkage.next_ptr_assign (ssn : HttpServerSession w) (v : Option Nat) :
    HttpServerSession w :=
  { ssn with _fqdn_link := { ssn._fqdn_link with _next := v } }

/-- Read through the reference returned by `FQDNLinkage::prev_ptr`. -/
def FQDNLinkage.prev_ptr (ssn : HttpServerSession w) : Option Nat := ssn._fqdn_link._prev

/-- Write through the reference returned by `FQDNLinkage::prev_ptr`. -/
def FQDNLinkage.prev_ptr_assign (ssn : HttpServerSession w) (v : Option Nat) :
    HttpServerSession w :=
  { ssn with _fqdn_link := { ssn._fqdn_link with _prev := v } }

/-- Static member `FQDNLinkage::hash_of`.  The parameter `fold` is `CryptoHash::fold`,
declared outside the sources. -/
def FQDNLinkage.hash_of (fold : CryptoHash w → Fin (2 ^ 64)) (key : CryptoHash w) :
    Fin (2 ^ 64) :=
  fold key

/-- Static member `FQDNLinkage::key_of`. -/
def FQDNLinkage.key_of (ssn : HttpServerSession w) : CryptoHash w := ssn.hostname_hash

/-- Static member `FQDNLinkage::equal`. -/
def FQDNLinkage.equal (lhs rhs : CryptoHash w) : Bool := CryptoHash.eq lhs rhs

/-! ### Member functions defined outside the header -/

/-- Modelled from the spec: `enable_outbound_connection_tracking` is only declared in the
header; its body is in `HttpServerSession.cc`, which is not part of the sources.  The
specification: it associates this session with a caller-supplied, already-incremented
tracking group; the session does not increment the group itself.  The result is the
updated session and the list of groups that the call notified of a decrement. -/
def enable_outbound_connection_tracking (s : HttpServerSession w) (group : Option Nat) :
    HttpServerSession w × List Nat :=
  ({ s with conn_track_group := group }, [])

/-- Modelled from the spec: `destroy` is only declared in the header; its body is in
`HttpServerSession.cc`, which is not part of the sources.  The specification: it removes
the session from both keyed indices, releases the transport connection and notifies the
tracking group, if one is attached, of one fewer active connection.  The result is the
updated session and the list of groups that the call notified of a decrement. -/
def destroy (s : HttpServerSession w) : HttpServerSession w × List Nat :=
  ({ s with _ip_link := {}, _fqdn_link := {}, server_vc := none },
   match s.conn_track_group with
   | none => []
   | some g => [g])

end HttpServerSession

/-- Modelled from the spec: the tracking-group collaborator (`OutboundConnTrack`, declared
in `HttpConnectionCount.h`, outside the sources) exposes a decrement by one; `counts g` is
the connection count of group `g`. -/
def OutboundConnTrack.decrement (counts : Nat → Int) (g : Nat) : Nat → Int :=
  fun k => if k = g then counts k - 1 else counts k

/-- The connection counts after the groups in `ds` were notified, in order. -/
def OutboundConnTrack.notify (counts : Nat → Int) (ds : List Nat) : Nat → Int :=
  ds.foldl OutboundConnTrack.decrement counts

/-- The fingerprint of a hostname as a lookup key: the crypto hash of the bytes of the
C string, as `attach_hostname` computes it. -/
def fingerprint {w : Nat} (hash_immediate : List Byte → CryptoHash w)
    (hostname : List Byte) : CryptoHash w :=
  hash_immediate (hostname.take (strlen hostname))

/-- A stand-in for the hash function parameter, used to instantiate the theorems at
concrete inputs: the exclusive-or of the bytes. -/
def xorHash (m : List Byte) : CryptoHash 8 :=
  m.foldl (fun acc c => Fin.ofNat (Nat.xor acc.val c.val)) (0 : Fin 256)

/-- A session whose fingerprint is set, used to instantiate the theorems. -/
def sampleSetSession : HttpServerSession 8 :=
  { hostname_hash := 5, state := HSS_State.HSS_KA_SHARED, transact_count := 2 }

/-- A transport connection to 10.0.0.1:80, used to instantiate the theorems. -/
def sampleVc : NetVConnection :=
  { handle := 1, remote_endpoint := { sa := { addr := IpAddr.ip4 167772161, port := 80 } } }

/-- A session holding `sampleVc`, used to instantiate the theorems. -/
def sampleConnectedSession : HttpServerSession 8 :=
  { server_vc := some sampleVc, state := HSS_State.HSS_ACTIVE }

/-! ## Auxiliary lemmas -/

open HttpServerSession

variable {w : Nat}

theorem CryptoHash.eq_iff (a b : CryptoHash w) : CryptoHash.eq a b = true ↔ a = b := by
  unfold CryptoHash.eq
  rw [decide_eq_true_iff]
  exact ⟨fun h => Fin.ext h, fun h => congrArg Fin.val h⟩

theorem CryptoHash.zero_eq_false_of_ne (a : CryptoHash w) (h : a ≠ CRYPTO_HASH_ZERO) :
    CryptoHash.eq CRYPTO_HASH_ZERO a = false := by
  cases hc : CryptoHash.eq CRYPTO_HASH_ZERO a with
  | false => rfl
  | true => exact absurd ((CryptoHash.eq_iff _ _).mp hc).symm h

theorem CryptoHash.zero_eq_zero : CryptoHash.eq (CRYPTO_HASH_ZERO : CryptoHash w) CRYPTO_HASH_ZERO = true :=
  (CryptoHash.eq_iff _ _).mpr rfl

theorem strlen_le_length (m : List Byte) : strlen m ≤ m.length := by
  induction m with
  | nil => simp [strlen]
  | cons c cs ih =>
    unfold strlen
    split
    · exact Nat.zero_le _
    · simpa using ih

theorem zero_not_mem_take_strlen (m : List Byte) : (0 : Byte) ∉ m.take (strlen m) := by
  induction m with
  | nil => simp [strlen]
  | cons c cs ih =>
    unfold strlen
    split
    · simp
    · rename_i hc
      rw [List.take_succ_cons, List.mem_cons, not_or]
      exact ⟨fun h => hc h.symm, ih⟩

theorem strlen_eq_length_of_no_nul (m : List Byte) (h : (0 : Byte) ∉ m) :
    strlen m = m.length := by
  induction m with
  | nil => simp [strlen]
  | cons c cs ih =>
    rw [List.mem_cons, not_or] at h
    unfold strlen
    rw [if_neg (fun hc => h.1 hc.symm), ih h.2, List.length_cons]

theorem attach_hostname_of_set (hash : List Byte → CryptoHash w) (s : HttpServerSession w)
    (hostname : List Byte) (h : s.hostname_hash ≠ CRYPTO_HASH_ZERO) :
    attach_hostname hash s hostname = s := by
  unfold attach_hostname
  rw [CryptoHash.zero_eq_false_of_ne _ h]
  rfl

theorem attach_hostname_of_unset (hash : List Byte → CryptoHash w) (s : HttpServerSession w)
    (hostname : List Byte) (h : s.hostname_hash = CRYPTO_HASH_ZERO) :
    attach_hostname hash s hostname =
      { s with hostname_hash := hash (hostname.take (strlen hostname)) } := by
  unfold attach_hostname
  rw [h, CryptoHash.zero_eq_zero]
  rfl

theorem foldl_attach_hostname_of_set (hash : List Byte → CryptoHash w)
    (later : List (List Byte)) (s : HttpServerSession w)
    (h : s.hostname_hash ≠ CRYPTO_HASH_ZERO) :
    later.foldl (attach_hostname hash) s = s := by
  induction later with
  | nil => rfl
  | cons b bs ih => rw [List.foldl_cons, attach_hostname_of_set hash s b h, ih]

/-! ## Claims about `attach_hostname` -/

/-- C1: on a session whose `hostname_hash` is not `CRYPTO_HASH_ZERO`, `attach_hostname`
with any hostname returns the session unchanged: `hostname_hash` and every other field
keep their values. -/
theorem attach_hostname_noop_when_set (hash : List Byte → CryptoHash w)
    (s : HttpServerSession w) (hostname : List Byte)
    (hset : s.hostname_hash ≠ CRYPTO_HASH_ZERO) :
    attach_hostname hash s hostname = s :=
  attach_hostname_of_set hash s hostname hset

theorem attach_hostname_noop_when_set_witness :
    sampleSetSession.hostname_hash ≠ CRYPTO_HASH_ZERO ∧
      attach_hostname xorHash sampleSetSession [98, 46, 99] = sampleSetSession :=
  ⟨by decide, attach_hostname_noop_when_set xorHash sampleSetSession [98, 46, 99] (by decide)⟩

/-- C2: on a session whose `hostname_hash` is `CRYPTO_HASH_ZERO`, after
`attach_hostname(h)` the `hostname_hash` is the crypto hash of the first `strlen h` bytes
of `h`, a buffer of length `strlen h` that holds no NUL byte (all of `h` when `h` holds
no NUL byte), and every other field is unchanged: putting the old `hostname_hash` back
gives the original session. -/
theorem attach_hostname_sets_unset (hash : List Byte → CryptoHash w)
    (s : HttpServerSession w) (h : List Byte)
    (hunset : s.hostname_hash = CRYPTO_HASH_ZERO) :
    (attach_hostname hash s h).hostname_hash = hash (h.take (strlen h)) ∧
    (h.take (strlen h)).length = strlen h ∧
    (0 : Byte) ∉ h.take (strlen h) ∧
    ((0 : Byte) ∉ h → (attach_hostname hash s h).hostname_hash = hash h) ∧
    { attach_hostname hash s h with hostname_hash := s.hostname_hash } = s ∧
    (attach_hostname hash s h).state = s.state ∧
    (attach_hostname hash s h).transact_count = s.transact_count ∧
    (attach_hostname hash s h)._ip_link = s._ip_link ∧
    (attach_hostname hash s h)._fqdn_link = s._fqdn_link ∧
    (attach_hostname hash s h).conn_track_group = s.conn_track_group ∧
    (attach_hostname hash s h).server_vc = s.server_vc := by
  rw [attach_hostname_of_unset hash s h hunset]
  refine ⟨rfl, ?_, zero_not_mem_take_strlen h, ?_, rfl, rfl, rfl, rfl, rfl, rfl, rfl⟩
  · exact List.length_take_of_le (strlen_le_length h)
  · intro hn
    show hash (h.take (strlen h)) = hash h
    rw [strlen_eq_length_of_no_nul h hn, List.take_length]

theorem attach_hostname_sets_unset_witness :
    (ctor : HttpServerSession 8).hostname_hash = CRYPTO_HASH_ZERO ∧
      (attach_hostname xorHash ctor [97, 46, 98]).hostname_hash = xorHash [97, 46, 98] ∧
      (attach_hostname xorHash ctor [97, 46, 98]).state = HSS_State.HSS_INIT :=
  ⟨rfl,
    ((attach_hostname_sets_unset xorHash ctor [97, 46, 98] rfl).2.2.2.1 (by decide)),
    (attach_hostname_sets_unset xorHash ctor [97, 46, 98] rfl).2.2.2.2.2.1⟩

/-- Two successive calls on a newly constructed session: the second call leaves the
`hostname_hash` of the first in place exactly when that value is not `CRYPTO_HASH_ZERO`;
when the first hostname has the all-zero fingerprint the session still counts as unset
and the second call stores the fingerprint of the second hostname. -/
theorem attach_hostname_twice_on_ctor (hash : List Byte → CryptoHash w) (a b : List Byte) :
    (attach_hostname hash (attach_hostname hash ctor a) b).hostname_hash =
      if fingerprint hash a = CRYPTO_HASH_ZERO then fingerprint hash b
      else fingerprint hash a := by
  have h1 : (attach_hostname hash ctor a).hostname_hash = fingerprint hash a := by
    rw [attach_hostname_of_unset hash ctor a rfl]
    rfl
  by_cases hz : fingerprint hash a = CRYPTO_HASH_ZERO
  · rw [if_pos hz, attach_hostname_of_unset hash _ b (h1.trans hz)]
    rfl
  · rw [if_neg hz, attach_hostname_of_set hash _ b (fun h => hz (h1.symm.trans h)), h1]

/-! ## The constructor -/

/-- The member `magic` of a newly constructed session: `HTTP_SS_MAGIC_DEAD` stored in
an `int`. -/
theorem ctor_magic : (ctor : HttpServerSession w).magic = -559022355 := by
  show int_of_enumerator HTTP_SS_MAGIC_DEAD = -559022355
  decide

/-- C4: a newly constructed session is in state `HSS_INIT`, its `hostname_hash` is
`CRYPTO_HASH_ZERO` (unset), `conn_track_group` is null, `transact_count` is 0,
`private_session` is false, and the next and prev links of both linkages are null. -/
theorem ctor_initial_state :
    (ctor : HttpServerSession w).state = HSS_State.HSS_INIT ∧
    (ctor : HttpServerSession w).hostname_hash = CRYPTO_HASH_ZERO ∧
    CryptoHash.eq CRYPTO_HASH_ZERO (ctor : HttpServerSession w).hostname_hash = true ∧
    (ctor : HttpServerSession w).conn_track_group = none ∧
    (ctor : HttpServerSession w).transact_count = 0 ∧
    (ctor : HttpServerSession w).private_session = false ∧
    IPLinkage.next_ptr (ctor : HttpServerSession w) = none ∧
    IPLinkage.prev_ptr (ctor : HttpServerSession w) = none ∧
    FQDNLinkage.next_ptr (ctor : HttpServerSession w) = none ∧
    FQDNLinkage.prev_ptr (ctor : HttpServerSession w) = none :=
  ⟨rfl, rfl, CryptoHash.zero_eq_zero, rfl, rfl, rfl, rfl, rfl, rfl, rfl⟩

/-! ## The address-keyed index -/

/-- C10: `get_server_ip`, `IPLinkage::key_of` and the two session overloads of
`IPLinkage::equal` fail with the release assertion exactly when `server_vc` is null;
with a transport handle `get_server_ip` returns its remote endpoint.  A newly
constructed session has no address key, and after `set_netvc(vc)` with a non-null `vc`,
`get_netvc` returns `vc` and `get_server_ip` returns the remote endpoint of `vc`. -/
theorem get_server_ip_defined_iff (s : HttpServerSession w) (l r : sockaddr)
    (vc : NetVConnection) :
    (get_server_ip s = Except.error Abort.ink_release_assert ↔ s.server_vc = none) ∧
    (IPLinkage.key_of s = Except.error Abort.ink_release_assert ↔ s.server_vc = none) ∧
    (IPLinkage.equal_addr_ssn l s = Except.error Abort.ink_release_assert ↔
      s.server_vc = none) ∧
    (IPLinkage.equal_ssn_addr s r = Except.error Abort.ink_release_assert ↔
      s.server_vc = none) ∧
    (s.server_vc = some vc → get_server_ip s = Except.ok vc.get_remote_endpoint) ∧
    get_server_ip (ctor : HttpServerSession w) = Except.error Abort.ink_release_assert ∧
    IPLinkage.key_of (ctor : HttpServerSession w) =
      Except.error Abort.ink_release_assert ∧
    get_netvc (set_netvc s (some vc)) = some vc ∧
    get_server_ip (set_netvc s (some vc)) = Except.ok vc.get_remote_endpoint := by
  refine ⟨?_, ?_, ?_, ?_, ?_, rfl, rfl, rfl, rfl⟩
  · unfold get_server_ip
    cases h : s.server_vc <;> simp
  · unfold IPLinkage.key_of get_server_ip
    cases h : s.server_vc <;> simp
  · unfold IPLinkage.equal_addr_ssn IPLinkage.key_of get_server_ip
    cases h : s.server_vc <;> simp
  · unfold IPLinkage.equal_ssn_addr IPLinkage.key_of get_server_ip
    cases h : s.server_vc <;> simp
  · intro h
    unfold get_server_ip
    rw [h]

theorem get_server_ip_defined_iff_witness :
    sampleConnectedSession.server_vc = some sampleVc ∧
      get_server_ip sampleConnectedSession = Except.ok sampleVc.get_remote_endpoint :=
  ⟨rfl,
    (get_server_ip_defined_iff sampleConnectedSession sampleVc.remote_endpoint.sa
      sampleVc.remote_endpoint.sa sampleVc).2.2.2.2.1 rfl⟩

/-- C5: `IPLinkage::equal(l, r)` is true exactly when `l` and `r` have the same address
and the same port; for a session `s` holding a transport handle `vc`, `key_of(s)` is the
remote endpoint of `vc`, `equal(l, s)` is `equal(l, key_of(s))` and `equal(s, r)` is
`equal(key_of(s), r)`. -/
theorem IPLinkage_equal_exact (s : HttpServerSession w) (vc : NetVConnection)
    (l r : sockaddr) (hvc : s.server_vc = some vc) :
    (IPLinkage.equal l r = true ↔ l.addr = r.addr ∧ l.port = r.port) ∧
    IPLinkage.key_of s = Except.ok vc.get_remote_endpoint.sa ∧
    IPLinkage.equal_addr_ssn l s =
      Except.ok (IPLinkage.equal l vc.get_remote_endpoint.sa) ∧
    IPLinkage.equal_ssn_addr s r =
      Except.ok (IPLinkage.equal vc.get_remote_endpoint.sa r) := by
  refine ⟨?_, ?_, ?_, ?_⟩
  · unfold IPLinkage.equal ats_ip_addr_port_eq
    rw [Bool.and_eq_true, beq_iff_eq, beq_iff_eq]
  · unfold IPLinkage.key_of get_server_ip
    rw [hvc]
  · unfold IPLinkage.equal_addr_ssn IPLinkage.key_of get_server_ip
    rw [hvc]
    rfl
  · unfold IPLinkage.equal_ssn_addr IPLinkage.key_of get_server_ip
    rw [hvc]
    rfl

theorem IPLinkage_equal_exact_witness :
    sampleConnectedSession.server_vc = some sampleVc ∧
      IPLinkage.equal_addr_ssn { addr := IpAddr.ip4 167772161, port := 80 }
        sampleConnectedSession = Except.ok true ∧
      IPLinkage.equal_ssn_addr sampleConnectedSession
        { addr := IpAddr.ip4 167772161, port := 8080 } = Except.ok false :=
  ⟨rfl,
    (IPLinkage_equal_exact sampleConnectedSession sampleVc
      { addr := IpAddr.ip4 167772161, port := 80 }
      { addr := IpAddr.ip4 167772161, port := 8080 } rfl).2.2.1,
    (IPLinkage_equal_exact sampleConnectedSession sampleVc
      { addr := IpAddr.ip4 167772161, port := 80 }
      { addr := IpAddr.ip4 167772161, port := 8080 } rfl).2.2.2⟩

/-! ## The hostname-keyed index -/

/-- C6: `FQDNLinkage::equal(a, b)` is true exactly when `a` and `b` are the same
fingerprint, `FQDNLinkage::hash_of(a)` is `a.fold()`, and equal keys have the same
`hash_of`. -/
theorem FQDNLinkage_equal_and_hash_of (fold : CryptoHash w → Fin (2 ^ 64))
    (a b : CryptoHash w) :
    (FQDNLinkage.equal a b = true ↔ a = b) ∧
    FQDNLinkage.hash_of fold a = fold a ∧
    (FQDNLinkage.equal a b = true →
      FQDNLinkage.hash_of fold a = FQDNLinkage.hash_of fold b) := by
  refine ⟨CryptoHash.eq_iff a b, rfl, ?_⟩
  intro h
  rw [(CryptoHash.eq_iff a b).mp h]

theorem FQDNLinkage_equal_and_hash_of_witness :
    FQDNLinkage.equal (7 : CryptoHash 8) 7 = true ∧
      FQDNLinkage.hash_of (fun k : CryptoHash 8 => Fin.ofNat k.val) 7 =
        FQDNLinkage.hash_of (fun k : CryptoHash 8 => Fin.ofNat k.val) 7 :=
  ⟨by decide,
    (FQDNLinkage_equal_and_hash_of (fun k : CryptoHash 8 => Fin.ofNat k.val) 7 7).2.2
      (by decide)⟩

theorem strlen_replicate_a (n : Nat) : strlen (List.replicate n (97 : Byte)) = n := by
  induction n with
  | zero => rfl
  | succ k ih =>
    rw [List.replicate_succ]
    unfold strlen
    rw [if_neg (by decide), ih]

theorem fingerprint_replicate_a (hash : List Byte → CryptoHash w) (n : Nat) :
    fingerprint hash (List.replicate n (97 : Byte)) = hash (List.replicate n (97 : Byte)) := by
  unfold fingerprint
  rw [strlen_replicate_a]
  congr 1
  have h := List.take_length (List.replicate n (97 : Byte))
  rwa [List.length_replicate] at h

theorem key_of_attach_hostname_ctor (hash : List Byte → CryptoHash w) (b : List Byte) :
    FQDNLinkage.key_of (attach_hostname hash ctor b) = fingerprint hash b := by
  rw [attach_hostname_of_unset hash ctor b rfl]
  rfl

/-- C7, as stated, fails for every fingerprint width and every hash function: no hash
function makes a match of the lookup key of `a` against a session attached to `b` imply
that `a` and `b` are the same C string, because infinitely many hostnames share finitely
many fingerprints. -/
theorem fqdn_match_does_not_identify_hostname :
    ¬ ∃ (n : Nat) (hash : List Byte → CryptoHash n), ∀ a b : List Byte,
      FQDNLinkage.equal (fingerprint hash a)
          (FQDNLinkage.key_of (attach_hostname hash ctor a)) = true ∧
        (FQDNLinkage.equal (fingerprint hash a)
            (FQDNLinkage.key_of (attach_hostname hash ctor b)) = true →
          a.take (strlen a) = b.take (strlen b)) := by
  rintro ⟨n, hash, H⟩
  obtain ⟨i, j, hij, hfij⟩ :=
    Finite.exists_ne_map_eq_of_infinite (fun k : Nat => hash (List.replicate k (97 : Byte)))
  have hfij2 : hash (List.replicate i (97 : Byte)) = hash (List.replicate j (97 : Byte)) := hfij
  have hmatch : FQDNLinkage.equal (fingerprint hash (List.replicate i (97 : Byte)))
      (FQDNLinkage.key_of (attach_hostname hash ctor (List.replicate j (97 : Byte)))) = true := by
    rw [key_of_attach_hostname_ctor, fingerprint_replicate_a, fingerprint_replicate_a, hfij2]
    exact (CryptoHash.eq_iff _ _).mpr rfl
  have hsame := (H (List.replicate i 97) (List.replicate j 97)).2 hmatch
  have hlen := congrArg List.length hsame
  rw [strlen_replicate_a, strlen_replicate_a, List.length_take, List.length_take,
    List.length_replicate, List.length_replicate, Nat.min_self, Nat.min_self] at hlen
  exact hij hlen

/-- C7, amended: for two newly constructed sessions `S1`, `S2` and hostnames `a`, `b`,
after `S1.attach_hostname(a)` and `S2.attach_hostname(b)` the lookup key of `a` matches
`S1`, and it matches `S2` exactly when `a` and `b` have the same fingerprint; so it
matches `S2` when `a` and `b` are the same C string and does not match `S2` when the
fingerprints of `a` and `b` differ. -/
theorem fqdn_match_iff_same_fingerprint (hash : List Byte → CryptoHash w)
    (a b : List Byte) :
    FQDNLinkage.equal (fingerprint hash a)
        (FQDNLinkage.key_of (attach_hostname hash ctor a)) = true ∧
    (FQDNLinkage.equal (fingerprint hash a)
        (FQDNLinkage.key_of (attach_hostname hash ctor b)) = true ↔
      fingerprint hash a = fingerprint hash b) ∧
    (a.take (strlen a) = b.take (strlen b) →
      FQDNLinkage.equal (fingerprint hash a)
        (FQDNLinkage.key_of (attach_hostname hash ctor b)) = true) ∧
    (fingerprint hash a ≠ fingerprint hash b →
      FQDNLinkage.equal (fingerprint hash a)
        (FQDNLinkage.key_of (attach_hostname hash ctor b)) = false) := by
  rw [key_of_attach_hostname_ctor, key_of_attach_hostname_ctor]
  refine ⟨(CryptoHash.eq_iff _ _).mpr rfl, CryptoHash.eq_iff _ _, ?_, ?_⟩
  · intro h
    refine (CryptoHash.eq_iff _ _).mpr ?_
    unfold fingerprint
    rw [h]
  · intro h
    cases hc : FQDNLinkage.equal (fingerprint hash a) (fingerprint hash b) with
    | false => rfl
    | true => exact absurd ((CryptoHash.eq_iff _ _).mp hc) h

theorem fqdn_match_iff_same_fingerprint_witness :
    fingerprint xorHash [97] ≠ fingerprint xorHash [98] ∧
      FQDNLinkage.equal (fingerprint xorHash [97])
        (FQDNLinkage.key_of (attach_hostname xorHash ctor [98])) = false :=
  ⟨by decide, (fqdn_match_iff_same_fingerprint xorHash [97] [98]).2.2.2 (by decide)⟩

/-! ## The link fields of the two indices -/

/-- C9: a value written through `IPLinkage::next_ptr` or `IPLinkage::prev_ptr` is read
back by the same accessor, changes neither the other IP link nor the two FQDN links, and
changes no field outside `_ip_link` (putting the old `_ip_link` back gives the original
session); symmetrically a write through `FQDNLinkage::next_ptr` or
`FQDNLinkage::prev_ptr` is read back, changes neither the other FQDN link nor the two IP
links, and changes no field outside `_fqdn_link`. -/
theorem linkage_accessors_disjoint (s : HttpServerSession w) (v : Option Nat) :
    (IPLinkage.next_ptr (IPLinkage.next_ptr_assign s v) = v ∧
      IPLinkage.prev_ptr (IPLinkage.next_ptr_assign s v) = IPLinkage.prev_ptr s ∧
      FQDNLinkage.next_ptr (IPLinkage.next_ptr_assign s v) = FQDNLinkage.next_ptr s ∧
      FQDNLinkage.prev_ptr (IPLinkage.next_ptr_assign s v) = FQDNLinkage.prev_ptr s ∧
      { IPLinkage.next_ptr_assign s v with _ip_link := s._ip_link } = s) ∧
    (IPLinkage.prev_ptr (IPLinkage.prev_ptr_assign s v) = v ∧
      IPLinkage.next_ptr (IPLinkage.prev_ptr_assign s v) = IPLinkage.next_ptr s ∧
      FQDNLinkage.next_ptr (IPLinkage.prev_ptr_assign s v) = FQDNLinkage.next_ptr s ∧
      FQDNLinkage.prev_ptr (IPLinkage.prev_ptr_assign s v) = FQDNLinkage.prev_ptr s ∧
      { IPLinkage.prev_ptr_assign s v with _ip_link := s._ip_link } = s) ∧
    (FQDNLinkage.next_ptr (FQDNLinkage.next_ptr_assign s v) = v ∧
      FQDNLinkage.prev_ptr (FQDNLinkage.next_ptr_assign s v) = FQDNLinkage.prev_ptr s ∧
      IPLinkage.next_ptr (FQDNLinkage.next_ptr_assign s v) = IPLinkage.next_ptr s ∧
      IPLinkage.prev_ptr (FQDNLinkage.next_ptr_assign s v) = IPLinkage.prev_ptr s ∧
      { FQDNLinkage.next_ptr_assign s v with _fqdn_link := s._fqdn_link } = s) ∧
    (FQDNLinkage.prev_ptr (FQDNLinkage.prev_ptr_assign s v) = v ∧
      FQDNLinkage.next_ptr (FQDNLinkage.prev_ptr_assign s v) = FQDNLinkage.next_ptr s ∧
      IPLinkage.next_ptr (FQDNLinkage.prev_ptr_assign s v) = IPLinkage.next_ptr s ∧
      IPLinkage.prev_ptr (FQDNLinkage.prev_ptr_assign s v) = IPLinkage.prev_ptr s ∧
      { FQDNLinkage.prev_ptr_assign s v with _fqdn_link := s._fqdn_link } = s) :=
  ⟨⟨rfl, rfl, rfl, rfl, rfl⟩, ⟨rfl, rfl, rfl, rfl, rfl⟩, ⟨rfl, rfl, rfl, rfl, rfl⟩,
    ⟨rfl, rfl, rfl, rfl, rfl⟩⟩

/-! ## Connection tracking -/

theorem notify_nil (counts : Nat → Int) : OutboundConnTrack.notify counts [] = counts := rfl

theorem notify_singleton (counts : Nat → Int) (g k : Nat) :
    OutboundConnTrack.notify counts [g] k = if k = g then counts k - 1 else counts k := rfl

/-- C8: `enable_outbound_connection_tracking(group)` attaches the group and notifies no
group (it neither increments nor decrements a count); `destroy()` of a session to which
group `g` was attached notifies exactly `g`, once, so the count of `g` goes down by one
and the count of every other group is unchanged, and the same holds for every session
whose `conn_track_group` is `g`; `destroy()` of a session with no group
attached, and so of a newly constructed one, notifies no group and changes no count. -/
theorem tracking_group_balance (s : HttpServerSession w) (g : Nat) (counts : Nat → Int) :
    (enable_outbound_connection_tracking s (some g)).2 = [] ∧
    OutboundConnTrack.notify counts (enable_outbound_connection_tracking s (some g)).2 =
      counts ∧
    (enable_outbound_connection_tracking s (some g)).1.conn_track_group = some g ∧
    (destroy (enable_outbound_connection_tracking s (some g)).1).2 = [g] ∧
    OutboundConnTrack.notify counts
      (destroy (enable_outbound_connection_tracking s (some g)).1).2 g = counts g - 1 ∧
    (∀ k, k ≠ g → OutboundConnTrack.notify counts
      (destroy (enable_outbound_connection_tracking s (some g)).1).2 k = counts k) ∧
    (s.conn_track_group = some g → (destroy s).2 = [g]) ∧
    (s.conn_track_group = none →
      (destroy s).2 = [] ∧ OutboundConnTrack.notify counts (destroy s).2 = counts) ∧
    (destroy (ctor : HttpServerSession w)).2 = [] := by
  refine ⟨rfl, rfl, rfl, rfl, ?_, ?_, ?_, ?_, rfl⟩
  · show OutboundConnTrack.notify counts [g] g = counts g - 1
    rw [notify_singleton, if_pos rfl]
  · intro k hk
    show OutboundConnTrack.notify counts [g] k = counts k
    rw [notify_singleton, if_neg hk]
  · intro h
    unfold destroy
    rw [h]
  · intro h
    have hd : (destroy s).2 = [] := by
      unfold destroy
      rw [h]
    exact ⟨hd, by rw [hd, notify_nil]⟩

theorem tracking_group_balance_witness :
    sampleSetSession.conn_track_group = none ∧
      (destroy sampleSetSession).2 = [] ∧
      OutboundConnTrack.notify (fun _ => 3)
        (destroy (enable_outbound_connection_tracking sampleSetSession (some 4)).1).2 4 = 2 :=
  ⟨rfl,
    ((tracking_group_balance sampleSetSession 4 (fun _ => 3)).2.2.2.2.2.2.2.1 rfl).1,
    (tracking_group_balance sampleSetSession 4 (fun _ => 3)).2.2.2.2.1⟩

end HttpServerSessionModel
